import Mathlib

/-!
Verification development for a food-pantry inventory tracker.

The client-local repository engine (inventory, clients, transactions,
settings, barcode cache, vocabulary lists) is shallowly embedded here.
JavaScript numbers are modelled as `Int` for quantities and `ℚ` for
weights and dollar values; ISO timestamp strings, ids and barcodes are
`String`s.  Nondeterministic inputs of the source (`new Date().toISOString()`,
`crypto.randomUUID()`) become explicit parameters (`now`, fresh ids).
React `setState` updaters are modelled as atomic state transitions: each
engine operation reads the entry snapshot and the outer updater's result
is the committed next state, matching the snapshot semantics the engine
is written against.
-/

/-- Geolocation payload attached to transactions. -/
structure GeoLocation where
  latitude : ℚ
  longitude : ℚ
  accuracy : Option ℚ := none
deriving Repr, DecidableEq

/-- One inventory item of the repository state. -/
structure InventoryItem where
  id : String
  name : String
  category : String
  barcode : Option String := none
  quantity : Int
  weightPerUnitLbs : ℚ
  valuePerUnitUsd : ℚ
  reorderThreshold : Option Int := none
  allergens : Option (List String) := none
  createdAt : String
  updatedAt : String
deriving Repr, DecidableEq

/-- One client record of the repository state. -/
structure ClientRecord where
  id : String
  name : String
  identifier : String
  contact : Option String := none
  allergies : Option (List String) := none
  notes : Option String := none
  createdAt : String
  updatedAt : String
deriving Repr, DecidableEq

/-- A snapshotted line item of a transaction. -/
structure TransactionItem where
  itemId : String
  name : String
  quantity : Int
  weightPerUnitLbs : ℚ
  valuePerUnitUsd : ℚ
deriving Repr, DecidableEq

/-- Transaction direction: receiving (IN) or distribution (OUT). -/
inductive TransactionType where
  | IN
  | OUT
deriving Repr, DecidableEq

/-- An immutable ledger entry. -/
structure Transaction where
  id : String
  type : TransactionType
  timestamp : String
  items : List TransactionItem
  source : Option String := none
  donor : Option String := none
  clientId : Option String := none
  clientName : Option String := none
  location : Option GeoLocation := none
deriving Repr, DecidableEq

/-- Recognized configuration options. -/
structure Settings where
  visitWarningDays : Int
deriving Repr, DecidableEq

/-- Advisory cache entry keyed by barcode. -/
structure BarcodeCacheEntry where
  name : Option String := none
  category : Option String := none
  weightPerUnitLbs : Option ℚ := none
  allergens : Option (List String) := none
  cachedAt : String
deriving Repr, DecidableEq

/-- The full repository state owned by the engine.  The barcode cache
(a JavaScript object keyed by barcode) is an insertion-ordered
association list with unique keys. -/
structure RepositoryState where
  inventory : List InventoryItem
  clients : List ClientRecord
  transactions : List Transaction
  settings : Settings
  barcodeCache : List (String × BarcodeCacheEntry)
  sources : List String
  donors : List String
deriving Repr, DecidableEq

/-- The default state used before any persisted data exists. -/
def defaultState : RepositoryState :=
  { inventory := []
    clients := []
    transactions := []
    settings := { visitWarningDays := 7 }
    barcodeCache := []
    sources := ["Donation", "Purchase", "Transfer", "Other"]
    donors := ["Morgan State University", "Maryland Food Bank", "Local Grocery"] }

/-- A persisted blob as parsed back from the durable store; each
top-level field may be missing (older blobs). -/
structure StoredState where
  inventory : Option (List InventoryItem) := none
  clients : Option (List ClientRecord) := none
  transactions : Option (List Transaction) := none
  settings : Option Settings := none
  barcodeCache : Option (List (String × BarcodeCacheEntry)) := none
  sources : Option (List String) := none
  donors : Option (List String) := none
deriving Repr, DecidableEq

/-- Contents of the durable store slot: either a blob that fails to
parse, or a parsed object with its present top-level fields. -/
inductive StoredBlob where
  | corrupt
  | valid (p : StoredState)
deriving Repr, DecidableEq

/-- Serialization of a full state: every top-level field is present. -/
def toStored (s : RepositoryState) : StoredState :=
  { inventory := some s.inventory
    clients := some s.clients
    transactions := some s.transactions
    settings := some s.settings
    barcodeCache := some s.barcodeCache
    sources := some s.sources
    donors := some s.donors }

/-- Load from the durable store: missing data or a parse failure yields
the default state; a parsed object is shallow-merged over the defaults
field by field. -/
def loadState : Option StoredBlob → RepositoryState
  | none => defaultState
  | some StoredBlob.corrupt => defaultState
  | some (StoredBlob.valid p) =>
    { inventory := p.inventory.getD defaultState.inventory
      clients := p.clients.getD defaultState.clients
      transactions := p.transactions.getD defaultState.transactions
      settings := p.settings.getD defaultState.settings
      barcodeCache := p.barcodeCache.getD defaultState.barcodeCache
      sources := p.sources.getD defaultState.sources
      donors := p.donors.getD defaultState.donors }

/-- Save to the durable store: the store afterwards holds the full
serialized state (last write wins). -/
def saveState (state : RepositoryState) : Option StoredBlob :=
  some (StoredBlob.valid (toStored state))

/-- JavaScript truthiness of an optional string: present and non-empty. -/
def optTruthy : Option String → Bool
  | none => false
  | some s => !s.isEmpty

/-- JavaScript `String.prototype.trim`: strip leading and trailing
whitespace, modelled on the character list. -/
def jsTrim (s : String) : String :=
  ⟨((s.data.dropWhile Char.isWhitespace).reverse.dropWhile Char.isWhitespace).reverse⟩

/-- JavaScript `<` on strings: lexicographic comparison of the code
units, modelled on character lists. -/
def charListLt : List Char → List Char → Bool
  | [], [] => false
  | [], _ :: _ => true
  | _ :: _, [] => false
  | a :: as, b :: bs => if a < b then true else if a = b then charListLt as bs else false

/-- JavaScript `<` on strings. -/
def jsStrLt (a b : String) : Bool :=
  charListLt a.data b.data

/-- JavaScript `<=` on strings. -/
def charListLe : List Char → List Char → Bool
  | [], _ => true
  | _ :: _, [] => false
  | a :: as, b :: bs => if a < b then true else if a = b then charListLe as bs else false

/-- JavaScript `<=` on strings. -/
def jsStrLe (a b : String) : Bool :=
  charListLe a.data b.data

/-- JavaScript `timestamp.slice(0, 10)`: the date-only prefix. -/
def dateOnly (ts : String) : String :=
  ⟨ts.data.take 10⟩

/-- The argument shape of `addOrUpdateItem`: a partially populated
inventory item with a required name.  A `some` field is one present on
the JavaScript object. -/
structure ItemPatch where
  id : Option String := none
  name : String
  category : Option String := none
  barcode : Option String := none
  quantity : Option Int := none
  weightPerUnitLbs : Option ℚ := none
  valuePerUnitUsd : Option ℚ := none
  reorderThreshold : Option Int := none
  allergens : Option (List String) := none
  createdAt : Option String := none
deriving Repr, DecidableEq

/-- Identity resolution of `addOrUpdateItem`: a truthy id match first,
otherwise a truthy-barcode match against items bearing a truthy equal
barcode. -/
def resolveItem (p : ItemPatch) (inv : List InventoryItem) : Option InventoryItem :=
  match (if optTruthy p.id then inv.find? (fun i => p.id == some i.id) else none) with
  | some i => some i
  | none =>
    if optTruthy p.barcode then
      inv.find? (fun i => optTruthy i.barcode && i.barcode == p.barcode)
    else none

/-- The object spread update of `addOrUpdateItem`: present fields of the
patch overwrite (including `id` and `createdAt`), absent fields keep the
existing value, and `updatedAt` is set afterwards. -/
def applyItemPatch (ex : InventoryItem) (p : ItemPatch) (now : String) : InventoryItem :=
  { id := p.id.getD ex.id
    name := p.name
    category := p.category.getD ex.category
    barcode := match p.barcode with | some b => some b | none => ex.barcode
    quantity := p.quantity.getD ex.quantity
    weightPerUnitLbs := p.weightPerUnitLbs.getD ex.weightPerUnitLbs
    valuePerUnitUsd := p.valuePerUnitUsd.getD ex.valuePerUnitUsd
    reorderThreshold := match p.reorderThreshold with | some r => some r | none => ex.reorderThreshold
    allergens := match p.allergens with | some a => some a | none => ex.allergens
    createdAt := p.createdAt.getD ex.createdAt
    updatedAt := now }

/-- `addOrUpdateItem`: resolve an existing item and update it in place,
or create a new item (fresh id unless the patch carries one, trimmed
barcode, numeric fields defaulting to 0, category defaulting to
"Uncategorized").  Returns the resulting item with the next state. -/
def addOrUpdateItem (p : ItemPatch) (now freshId : String) (s : RepositoryState) :
    InventoryItem × RepositoryState :=
  match resolveItem p s.inventory with
  | some ex =>
    let updated := applyItemPatch ex p now
    (updated, { s with inventory := s.inventory.map (fun i => if i.id == ex.id then updated else i) })
  | none =>
    let item : InventoryItem :=
      { id := p.id.getD freshId
        name := p.name
        category := p.category.getD "Uncategorized"
        barcode := match p.barcode with
          | some b => if (jsTrim b).isEmpty then none else some (jsTrim b)
          | none => none
        quantity := p.quantity.getD 0
        weightPerUnitLbs := p.weightPerUnitLbs.getD 0
        valuePerUnitUsd := p.valuePerUnitUsd.getD 0
        reorderThreshold := p.reorderThreshold
        allergens := p.allergens
        createdAt := now
        updatedAt := now }
    (item, { s with inventory := s.inventory ++ [item] })

/-- `adjustItemQuantity`: clamp-at-zero delta on the matching item; no
transaction is recorded. -/
def adjustItemQuantity (itemId : String) (delta : Int) (now : String)
    (s : RepositoryState) : RepositoryState :=
  { s with inventory := s.inventory.map (fun item =>
      if item.id == itemId then
        { item with quantity := max 0 (item.quantity + delta), updatedAt := now }
      else item) }

/-- The argument shape of `upsertClient`: name and identifier required. -/
structure ClientPatch where
  id : Option String := none
  name : String
  identifier : String
  contact : Option String := none
  allergies : Option (List String) := none
  notes : Option String := none
  createdAt : Option String := none
deriving Repr, DecidableEq

/-- Identity resolution of `upsertClient`: truthy id match first,
otherwise an exact identifier match. -/
def resolveClient (p : ClientPatch) (cs : List ClientRecord) : Option ClientRecord :=
  match (if optTruthy p.id then cs.find? (fun c => p.id == some c.id) else none) with
  | some c => some c
  | none => cs.find? (fun c => c.identifier == p.identifier)

/-- The object spread update of `upsertClient`. -/
def applyClientPatch (ex : ClientRecord) (p : ClientPatch) (now : String) : ClientRecord :=
  { id := p.id.getD ex.id
    name := p.name
    identifier := p.identifier
    contact := match p.contact with | some c => some c | none => ex.contact
    allergies := match p.allergies with | some a => some a | none => ex.allergies
    notes := match p.notes with | some n => some n | none => ex.notes
    createdAt := p.createdAt.getD ex.createdAt
    updatedAt := now }

/-- `upsertClient`: resolve and update in place, or create a new client
appended to the list.  Returns the resulting client with the next state. -/
def upsertClient (p : ClientPatch) (now freshId : String) (s : RepositoryState) :
    ClientRecord × RepositoryState :=
  match resolveClient p s.clients with
  | some ex =>
    let updated := applyClientPatch ex p now
    (updated, { s with clients := s.clients.map (fun c => if c.id == ex.id then updated else c) })
  | none =>
    let client : ClientRecord :=
      { id := p.id.getD freshId
        name := p.name
        identifier := p.identifier
        contact := p.contact
        allergies := p.allergies
        notes := p.notes
        createdAt := now
        updatedAt := now }
    (client, { s with clients := s.clients ++ [client] })

/-- The argument object of `recordInbound`. -/
structure InboundOptions where
  itemId : String
  quantity : Int
  source : Option String := none
  donor : Option String := none
  timestamp : Option String := none
  location : Option GeoLocation := none
deriving Repr, DecidableEq

/-- `recordInbound`: silently rejected when the quantity is not positive
or the item does not exist; otherwise increments the item's quantity,
refreshes its `updatedAt`, and prepends one IN transaction whose single
line item snapshots the item before the call. -/
def recordInbound (o : InboundOptions) (now txId : String) (s : RepositoryState) :
    RepositoryState :=
  let timestamp := o.timestamp.getD now
  if o.quantity ≤ 0 then s
  else
    match s.inventory.find? (fun i => i.id == o.itemId) with
    | none => s
    | some item =>
      let inventory := s.inventory.map (fun i =>
        if i.id == o.itemId then
          { i with quantity := i.quantity + o.quantity, updatedAt := timestamp }
        else i)
      let tx : Transaction :=
        { id := txId
          type := TransactionType.IN
          timestamp := timestamp
          items := [{ itemId := item.id, name := item.name, quantity := o.quantity,
                      weightPerUnitLbs := item.weightPerUnitLbs,
                      valuePerUnitUsd := item.valuePerUnitUsd }]
          source := o.source
          donor := o.donor
          location := o.location }
      { s with inventory := inventory, transactions := tx :: s.transactions }

/-- One cart line of a check-out. -/
structure CartLine where
  itemId : String
  quantity : Int
deriving Repr, DecidableEq

/-- The client payload of `recordOutbound`. -/
structure OutboundClient where
  id : Option String := none
  name : String
  identifier : String
  contact : Option String := none
deriving Repr, DecidableEq

/-- The argument object of `recordOutbound`. -/
structure OutboundOptions where
  client : OutboundClient
  items : List CartLine
  timestamp : Option String := none
  location : Option GeoLocation := none
deriving Repr, DecidableEq

/-- The client patch `recordOutbound` hands to `upsertClient`. -/
def outClientPatch (o : OutboundOptions) : ClientPatch :=
  { id := o.client.id
    name := o.client.name
    identifier := o.client.identifier
    contact := o.client.contact }

/-- Inventory after a check-out: each item referenced by some cart line
takes `max 0 (quantity - line quantity)` where the line is the first
cart line bearing the item's id; other items are untouched. -/
def outInventory (o : OutboundOptions) (timestamp : String)
    (inv : List InventoryItem) : List InventoryItem :=
  inv.map (fun item =>
    match o.items.find? (fun l => l.itemId == item.id) with
    | none => item
    | some l => { item with quantity := max 0 (item.quantity - l.quantity), updatedAt := timestamp })

/-- Transaction line items of a check-out: one per cart line whose item
exists, snapshotting the item before the decrement; lines referencing a
nonexistent item are dropped. -/
def outTxItems (o : OutboundOptions) (inv : List InventoryItem) : List TransactionItem :=
  o.items.filterMap (fun l =>
    (inv.find? (fun item => item.id == l.itemId)).map (fun base =>
      { itemId := base.id
        name := base.name
        quantity := l.quantity
        weightPerUnitLbs := base.weightPerUnitLbs
        valuePerUnitUsd := base.valuePerUnitUsd }))

/-- `recordOutbound`: rejected outright on an empty cart; resolves or
creates the client, decrements referenced items (clamped at zero),
builds one OUT transaction from the surviving cart lines, and aborts
with no state change when no line survives. -/
def recordOutbound (o : OutboundOptions) (now txId clientFreshId : String)
    (s : RepositoryState) : Option ClientRecord × RepositoryState :=
  let timestamp := o.timestamp.getD now
  if o.items.isEmpty then (none, s)
  else
    let client := (upsertClient (outClientPatch o) now clientFreshId s).1
    let txItems := outTxItems o s.inventory
    if txItems.isEmpty then (some client, s)
    else
      let tx : Transaction :=
        { id := txId
          type := TransactionType.OUT
          timestamp := timestamp
          items := txItems
          clientId := some client.id
          clientName := some client.name
          location := o.location }
      (some client,
        { s with
          inventory := outInventory o timestamp s.inventory
          clients := if s.clients.any (fun c => c.id == client.id) then
              s.clients.map (fun c => if c.id == client.id then client else c)
            else client :: s.clients
          transactions := tx :: s.transactions })

/-- The argument shape of `updateSettings`. -/
structure SettingsPatch where
  visitWarningDays : Option Int := none
deriving Repr, DecidableEq

/-- `updateSettings`: shallow merge of recognized options. -/
def updateSettings (p : SettingsPatch) (s : RepositoryState) : RepositoryState :=
  { s with settings := { visitWarningDays := p.visitWarningDays.getD s.settings.visitWarningDays } }

/-- The argument shape of `upsertBarcodeCache` (the entry minus
`cachedAt`). -/
structure CachePatch where
  name : Option String := none
  category : Option String := none
  weightPerUnitLbs : Option ℚ := none
  allergens : Option (List String) := none
deriving Repr, DecidableEq

/-- Object-spread write into the cache map: an existing key is replaced
in place, a new key is appended (JavaScript object insertion order). -/
def setCache (m : List (String × BarcodeCacheEntry)) (b : String)
    (v : BarcodeCacheEntry) : List (String × BarcodeCacheEntry) :=
  if m.any (fun kv => kv.1 == b) then
    m.map (fun kv => if kv.1 == b then (b, v) else kv)
  else m ++ [(b, v)]

/-- Lookup in the cache map. -/
def lookupCache (m : List (String × BarcodeCacheEntry)) (b : String) :
    Option BarcodeCacheEntry :=
  (m.find? (fun kv => kv.1 == b)).map (fun kv => kv.2)

/-- `upsertBarcodeCache`: unconditionally overwrite the entry for the
barcode with the given fields plus a fresh `cachedAt`. -/
def upsertBarcodeCache (b : String) (e : CachePatch) (now : String)
    (s : RepositoryState) : RepositoryState :=
  let entry : BarcodeCacheEntry :=
    { name := e.name, category := e.category, weightPerUnitLbs := e.weightPerUnitLbs,
      allergens := e.allergens, cachedAt := now }
  { s with barcodeCache := setCache s.barcodeCache b entry }

/-- `addSource`: append if not already present (case-sensitive). -/
def addSource (src : String) (s : RepositoryState) : RepositoryState :=
  if s.sources.contains src then s else { s with sources := s.sources ++ [src] }

/-- `addDonor`: append if not already present (case-sensitive). -/
def addDonor (d : String) (s : RepositoryState) : RepositoryState :=
  if s.donors.contains d then s else { s with donors := s.donors ++ [d] }

/-- One repository-engine call together with its nondeterministic inputs
(timestamps and freshly generated ids) fixed as data. -/
inductive Op where
  | add (p : ItemPatch) (now freshId : String)
  | adjust (itemId : String) (delta : Int) (now : String)
  | inbound (o : InboundOptions) (now txId : String)
  | outbound (o : OutboundOptions) (now txId clientFreshId : String)
  | upClient (p : ClientPatch) (now freshId : String)
  | setSettings (p : SettingsPatch)
  | upCache (b : String) (e : CachePatch) (now : String)
  | addSrc (src : String)
  | addDon (d : String)
deriving Repr, DecidableEq

/-- Apply one engine call to a state, discarding its return value. -/
def applyOp (op : Op) (s : RepositoryState) : RepositoryState :=
  match op with
  | Op.add p now freshId => (addOrUpdateItem p now freshId s).2
  | Op.adjust itemId delta now => adjustItemQuantity itemId delta now s
  | Op.inbound o now txId => recordInbound o now txId s
  | Op.outbound o now txId cid => (recordOutbound o now txId cid s).2
  | Op.upClient p now freshId => (upsertClient p now freshId s).2
  | Op.setSettings p => updateSettings p s
  | Op.upCache b e now => upsertBarcodeCache b e now s
  | Op.addSrc src => addSource src s
  | Op.addDon d => addDonor d s

/-- Apply a sequence of engine calls left to right. -/
def applyOps (ops : List Op) (s : RepositoryState) : RepositoryState :=
  ops.foldl (fun t op => applyOp op t) s

/-- Every inventory item of the state has a non-negative quantity. -/
def quantitiesNonneg (s : RepositoryState) : Prop :=
  ∀ i ∈ s.inventory, 0 ≤ i.quantity

/-- An engine call never hands the engine a negative quantity through an
item patch (`recordInbound`/`recordOutbound` guard or clamp on their
own). -/
def addQuantityOK : Op → Bool
  | Op.add p _ _ => match p.quantity with
    | some q => decide (0 ≤ q)
    | none => true
  | _ => true

/-- Date-range filter of the reports page: with a non-empty bound the
date-only prefix of the timestamp is compared lexicographically; only
OUT transactions pass. -/
def rangeTx (fromDate toDate : String) (txs : List Transaction) : List Transaction :=
  txs.filter (fun tx =>
    let d := dateOnly tx.timestamp
    if fromDate != "" && jsStrLt d fromDate then false
    else if toDate != "" && jsStrLt toDate d then false
    else tx.type == TransactionType.OUT)

/-- Total weight accumulated by the reports page over a transaction
list. -/
def totalsWeight (txs : List Transaction) : ℚ :=
  txs.foldl (fun acc tx =>
    tx.items.foldl (fun a it => a + it.weightPerUnitLbs * (it.quantity : ℚ)) acc) 0

/-- Total value accumulated by the reports page over a transaction
list. -/
def totalsValue (txs : List Transaction) : ℚ :=
  txs.foldl (fun acc tx =>
    tx.items.foldl (fun a it => a + it.valuePerUnitUsd * (it.quantity : ℚ)) acc) 0

lemma find?_map_replace_self (b : String) (v : BarcodeCacheEntry)
    (t : List (String × BarcodeCacheEntry)) :
    (t.map (fun kv => if kv.1 == b then (b, v) else kv)).find? (fun kv => kv.1 == b) =
      if t.any (fun kv => kv.1 == b) then some (b, v) else none := by
  induction t with
  | nil => rfl
  | cons kv t ih =>
    by_cases hb : kv.1 = b
    · have hkb : (kv.1 == b) = true := by simp [hb]
      have hbb : (((b, v) : String × BarcodeCacheEntry).1 == b) = true := by simp
      simp only [List.map_cons, List.find?, List.any_cons, hkb, if_true, hbb,
        Bool.true_or, if_pos]
    · have hkb : (kv.1 == b) = false := by simp [hb]
      simp only [List.map_cons, List.find?, List.any_cons, hkb, Bool.false_eq_true,
        if_false, Bool.false_or, ih]

lemma find?_map_replace_ne (b b' : String) (v : BarcodeCacheEntry) (hne : b' ≠ b)
    (t : List (String × BarcodeCacheEntry)) :
    (t.map (fun kv => if kv.1 == b then (b, v) else kv)).find? (fun kv => kv.1 == b') =
      t.find? (fun kv => kv.1 == b') := by
  induction t with
  | nil => rfl
  | cons kv t ih =>
    by_cases hb : kv.1 = b
    · have hkb : (kv.1 == b) = true := by simp [hb]
      have h1 : (((b, v) : String × BarcodeCacheEntry).1 == b') = false := by
        simp [Ne.symm hne]
      have h2 : (kv.1 == b') = false := by simp [hb, Ne.symm hne]
      simp only [List.map_cons, List.find?, hkb, if_true, h1, h2, ih]
    · have hkb : (kv.1 == b) = false := by simp [hb]
      simp only [List.map_cons, List.find?, hkb, Bool.false_eq_true, if_false]
      cases hk2 : (kv.1 == b') with
      | true => rfl
      | false => simp only [ih]

lemma find?_setCache_self (m : List (String × BarcodeCacheEntry)) (b : String)
    (v : BarcodeCacheEntry) :
    (setCache m b v).find? (fun kv => kv.1 == b) = some (b, v) := by
  unfold setCache
  by_cases h : m.any (fun kv => kv.1 == b)
  · rw [if_pos h, find?_map_replace_self, if_pos h]
  · rw [if_neg h, List.find?_append]
    have hm : m.find? (fun kv => kv.1 == b) = none := by
      rw [List.find?_eq_none]
      intro x hx hpx
      exact h (List.any_eq_true.2 ⟨x, hx, hpx⟩)
    simp [hm, List.find?_cons]

lemma find?_setCache_ne (m : List (String × BarcodeCacheEntry)) (b b' : String)
    (v : BarcodeCacheEntry) (hne : b' ≠ b) :
    (setCache m b v).find? (fun kv => kv.1 == b') = m.find? (fun kv => kv.1 == b') := by
  unfold setCache
  by_cases h : m.any (fun kv => kv.1 == b)
  · rw [if_pos h, find?_map_replace_ne _ _ _ hne]
  · rw [if_neg h, List.find?_append]
    have : ([(b, v)].find? (fun kv => kv.1 == b')) = none := by
      simp [List.find?_cons, Ne.symm hne]
    simp [this]

/-- C7: saving then loading restores the state on every field; loading
is total, returning the default state on missing or corrupt data, and
shallow-merging a partial stored object with the defaults field by
field. -/
theorem c7_save_load_round_trip :
    (∀ s : RepositoryState, loadState (saveState s) = s)
    ∧ loadState none = defaultState
    ∧ loadState (some StoredBlob.corrupt) = defaultState
    ∧ (∀ p : StoredState, loadState (some (StoredBlob.valid p)) =
        { inventory := p.inventory.getD defaultState.inventory
          clients := p.clients.getD defaultState.clients
          transactions := p.transactions.getD defaultState.transactions
          settings := p.settings.getD defaultState.settings
          barcodeCache := p.barcodeCache.getD defaultState.barcodeCache
          sources := p.sources.getD defaultState.sources
          donors := p.donors.getD defaultState.donors }) :=
  ⟨fun _ => rfl, rfl, rfl, fun _ => rfl⟩

/-- C10: `upsertBarcodeCache` changes only the cache field: all other
state fields are untouched, entries at other barcodes are untouched, and
the entry at the given barcode becomes the given fields plus the fresh
`cachedAt`. -/
theorem c10_upsert_barcode_cache_frame (b : String) (e : CachePatch) (now : String)
    (s : RepositoryState) :
    (upsertBarcodeCache b e now s).inventory = s.inventory
    ∧ (upsertBarcodeCache b e now s).clients = s.clients
    ∧ (upsertBarcodeCache b e now s).transactions = s.transactions
    ∧ (upsertBarcodeCache b e now s).settings = s.settings
    ∧ (upsertBarcodeCache b e now s).sources = s.sources
    ∧ (upsertBarcodeCache b e now s).donors = s.donors
    ∧ (∀ b', b' ≠ b →
        lookupCache (upsertBarcodeCache b e now s).barcodeCache b' =
          lookupCache s.barcodeCache b')
    ∧ lookupCache (upsertBarcodeCache b e now s).barcodeCache b =
        some { name := e.name, category := e.category,
               weightPerUnitLbs := e.weightPerUnitLbs,
               allergens := e.allergens, cachedAt := now } := by
  refine ⟨rfl, rfl, rfl, rfl, rfl, rfl, fun b' hb' => ?_, ?_⟩
  · unfold upsertBarcodeCache lookupCache
    rw [find?_setCache_ne _ _ _ _ hb']
  · unfold upsertBarcodeCache lookupCache
    rw [find?_setCache_self]
    rfl

theorem c10_upsert_barcode_cache_frame_witness :
    lookupCache (upsertBarcodeCache "123" {} "t0" defaultState).barcodeCache "456" =
      lookupCache defaultState.barcodeCache "456"
    ∧ lookupCache (upsertBarcodeCache "123" {} "t0" defaultState).barcodeCache "123" =
      some { cachedAt := "t0" } :=
  ⟨(c10_upsert_barcode_cache_frame "123" {} "t0" defaultState).2.2.2.2.2.2.1 "456" (by decide),
   (c10_upsert_barcode_cache_frame "123" {} "t0" defaultState).2.2.2.2.2.2.2⟩

/-- A concrete inventory item used to exercise the theorems below. -/
def sampleItem : InventoryItem :=
  { id := "A", name := "Rice", category := "c", quantity := 10,
    weightPerUnitLbs := 0, valuePerUnitUsd := 0, createdAt := "t0", updatedAt := "t0" }

/-- A concrete state holding just `sampleItem`. -/
def sampleState : RepositoryState :=
  { defaultState with inventory := [sampleItem] }

/-- C2: a `recordOutbound` call with a non-empty cart in which every
line references an itemId missing from inventory aborts with no state
change: no transaction, no inventory change, no client created or
updated. -/
theorem c2_outbound_all_missing_aborts (o : OutboundOptions) (now txId cid : String)
    (s : RepositoryState) (hne : o.items ≠ [])
    (habs : ∀ l ∈ o.items, s.inventory.find? (fun item => item.id == l.itemId) = none) :
    (recordOutbound o now txId cid s).2 = s := by
  have hne' : o.items.isEmpty = false := List.isEmpty_eq_false.2 hne
  have htx : outTxItems o s.inventory = [] := by
    unfold outTxItems
    rw [List.filterMap_eq_nil_iff]
    intro l hl
    rw [habs l hl]
    rfl
  unfold recordOutbound
  rw [hne']
  simp only [Bool.false_eq_true, if_false, htx]
  rfl

def c2wOptions : OutboundOptions :=
  { client := { name := "Jane", identifier := "J1" }
    items := [{ itemId := "ghost", quantity := 1 }] }

theorem c2_outbound_all_missing_aborts_witness :
    (recordOutbound c2wOptions "t" "tx" "cid" defaultState).2 = defaultState :=
  c2_outbound_all_missing_aborts c2wOptions "t" "tx" "cid" defaultState
    (by decide) (by decide)

/-- C5: `recordInbound` is a no-op when the quantity is not positive or
the item is missing; otherwise it adds the quantity to the matched item,
sets its `updatedAt` to the transaction timestamp, and prepends exactly
one IN transaction whose single line carries the requested quantity and
the item's pre-call name, weight and value; every call changes the
transaction count by zero or exactly one. -/
theorem c5_inbound_cases (o : InboundOptions) (now txId : String) (s : RepositoryState) :
    (o.quantity ≤ 0 → recordInbound o now txId s = s)
    ∧ (s.inventory.find? (fun i => i.id == o.itemId) = none → recordInbound o now txId s = s)
    ∧ (∀ item, 0 < o.quantity → s.inventory.find? (fun i => i.id == o.itemId) = some item →
        recordInbound o now txId s =
          { s with
            inventory := s.inventory.map (fun i =>
              if i.id == o.itemId then
                { i with quantity := i.quantity + o.quantity,
                         updatedAt := o.timestamp.getD now }
              else i)
            transactions :=
              { id := txId
                type := TransactionType.IN
                timestamp := o.timestamp.getD now
                items := [{ itemId := item.id, name := item.name, quantity := o.quantity,
                            weightPerUnitLbs := item.weightPerUnitLbs,
                            valuePerUnitUsd := item.valuePerUnitUsd }]
                source := o.source
                donor := o.donor
                location := o.location } :: s.transactions })
    ∧ ((recordInbound o now txId s).transactions.length = s.transactions.length ∨
        (recordInbound o now txId s).transactions.length = s.transactions.length + 1) := by
  refine ⟨?_, ?_, ?_, ?_⟩
  · intro h
    unfold recordInbound
    rw [if_pos h]
  · intro h
    unfold recordInbound
    by_cases hq : o.quantity ≤ 0
    · rw [if_pos hq]
    · rw [if_neg hq, h]
  · intro item hq hfind
    unfold recordInbound
    rw [if_neg (not_le.2 hq), hfind]
  · by_cases hq : o.quantity ≤ 0
    · left
      unfold recordInbound
      rw [if_pos hq]
    · cases hfind : s.inventory.find? (fun i => i.id == o.itemId) with
      | none =>
        left
        unfold recordInbound
        rw [if_neg hq, hfind]
      | some item =>
        right
        unfold recordInbound
        rw [if_neg hq, hfind]
        simp [List.length_cons]

def c5wTx : Transaction :=
  { id := "tx"
    type := TransactionType.IN
    timestamp := "t1"
    items := [{ itemId := "A", name := "Rice", quantity := 5,
                weightPerUnitLbs := 0, valuePerUnitUsd := 0 }] }

theorem c5_inbound_cases_witness :
    recordInbound { itemId := "A", quantity := 0 } "t" "tx" defaultState = defaultState
    ∧ recordInbound { itemId := "A", quantity := 5 } "t1" "tx" sampleState =
      { sampleState with
        inventory := [{ sampleItem with quantity := 15, updatedAt := "t1" }]
        transactions := [c5wTx] } := by
  constructor
  · exact (c5_inbound_cases { itemId := "A", quantity := 0 } "t" "tx" defaultState).1
      (by decide)
  · rw [(c5_inbound_cases { itemId := "A", quantity := 5 } "t1" "tx" sampleState).2.2.1
      sampleItem (by decide) (by decide)]
    decide

/-- C9: every engine operation leaves the previous transaction list as a
suffix of the new one (existing transactions are never edited, removed
or reordered), and a non-rejected `recordInbound` or `recordOutbound`
places its single new transaction at the head of the list. -/
theorem c9_ledger_newest_first :
    (∀ (op : Op) (s : RepositoryState), s.transactions <:+ (applyOp op s).transactions)
    ∧ (∀ (o : InboundOptions) (now txId : String) (s : RepositoryState),
        0 < o.quantity → (s.inventory.find? (fun i => i.id == o.itemId)).isSome →
        ∃ tx, (recordInbound o now txId s).transactions = tx :: s.transactions)
    ∧ (∀ (o : OutboundOptions) (now txId cid : String) (s : RepositoryState),
        o.items ≠ [] → outTxItems o s.inventory ≠ [] →
        ∃ tx, (recordOutbound o now txId cid s).2.transactions = tx :: s.transactions) := by
  refine ⟨?_, ?_, ?_⟩
  · intro op s
    cases op with
    | add p now freshId =>
      simp only [applyOp]
      unfold addOrUpdateItem
      cases h : resolveItem p s.inventory with
      | none => exact List.suffix_refl _
      | some ex => exact List.suffix_refl _
    | adjust itemId delta now => exact List.suffix_refl _
    | inbound o now txId =>
      simp only [applyOp]
      unfold recordInbound
      by_cases hq : o.quantity ≤ 0
      · rw [if_pos hq]
      · rw [if_neg hq]
        cases h : s.inventory.find? (fun i => i.id == o.itemId) with
        | none => exact List.suffix_refl _
        | some item => exact List.suffix_cons _ _
    | outbound o now txId cid =>
      simp only [applyOp]
      unfold recordOutbound
      by_cases he : o.items.isEmpty
      · rw [if_pos he]
      · rw [if_neg he]
        by_cases ht : (outTxItems o s.inventory).isEmpty
        · simp only [ht, if_true, if_pos]
          exact List.suffix_refl _
        · simp only [ht, Bool.false_eq_true, if_false]
          exact List.suffix_cons _ _
    | upClient p now freshId =>
      simp only [applyOp]
      unfold upsertClient
      cases h : resolveClient p s.clients with
      | none => exact List.suffix_refl _
      | some ex => exact List.suffix_refl _
    | setSettings p => exact List.suffix_refl _
    | upCache b e now => exact List.suffix_refl _
    | addSrc src =>
      simp only [applyOp]
      unfold addSource
      by_cases h : s.sources.contains src
      · rw [if_pos h]
      · rw [if_neg h]
    | addDon d =>
      simp only [applyOp]
      unfold addDonor
      by_cases h : s.donors.contains d
      · rw [if_pos h]
      · rw [if_neg h]
  · intro o now txId s hq hfind
    rcases Option.isSome_iff_exists.1 hfind with ⟨item, hitem⟩
    exact ⟨_, by unfold recordInbound; rw [if_neg (not_le.2 hq), hitem]⟩
  · intro o now txId cid s hne htx
    have hne' : o.items.isEmpty = false := List.isEmpty_eq_false.2 hne
    have htx' : (outTxItems o s.inventory).isEmpty = false := List.isEmpty_eq_false.2 htx
    exact ⟨_, by
      unfold recordOutbound
      rw [hne']
      simp only [Bool.false_eq_true, if_false, htx']
      rfl⟩

def c9wOptions : OutboundOptions :=
  { client := { name := "J", identifier := "j" }
    items := [{ itemId := "A", quantity := 1 }] }

theorem c9_ledger_newest_first_witness :
    defaultState.transactions <:+ (applyOp (Op.addSrc "Farm") defaultState).transactions
    ∧ (∃ tx, (recordInbound { itemId := "A", quantity := 2 } "t" "tx"
        sampleState).transactions = tx :: sampleState.transactions)
    ∧ (∃ tx, (recordOutbound c9wOptions "t" "tx" "cid"
        sampleState).2.transactions = tx :: sampleState.transactions) :=
  ⟨c9_ledger_newest_first.1 (Op.addSrc "Farm") defaultState,
   c9_ledger_newest_first.2.1 _ "t" "tx" sampleState (by decide) (by decide),
   c9_ledger_newest_first.2.2 c9wOptions "t" "tx" "cid" sampleState (by decide) (by decide)⟩

lemma charListLt_eq_false_iff : ∀ a b : List Char, charListLt a b = false ↔ charListLe b a = true
  | [], [] => by simp [charListLt, charListLe]
  | [], _ :: _ => by simp [charListLt, charListLe]
  | _ :: _, [] => by simp [charListLt, charListLe]
  | x :: xs, y :: ys => by
    by_cases hxy : x < y
    · have h1 : ¬y < x := lt_asymm hxy
      have h2 : ¬y = x := fun h => absurd hxy (h ▸ lt_irrefl x)
      simp [charListLt, charListLe, hxy, h1, h2]
    · by_cases heq : x = y
      · subst heq
        simp [charListLt, charListLe, lt_irrefl, charListLt_eq_false_iff xs ys]
      · have hyx : y < x := by
          rcases lt_trichotomy x y with h | h | h
          · exact absurd h hxy
          · exact absurd h heq
          · exact h
        simp [charListLt, charListLe, hxy, heq, hyx]

lemma jsStrLt_eq_false_iff (a b : String) : jsStrLt a b = false ↔ jsStrLe b a = true := by
  unfold jsStrLt jsStrLe
  exact charListLt_eq_false_iff a.data b.data

lemma foldl_add_eq_sum {α : Type} (f : α → ℚ) :
    ∀ (l : List α) (acc : ℚ), l.foldl (fun a x => a + f x) acc = acc + (l.map f).sum
  | [], acc => by simp
  | x :: t, acc => by
    simp only [List.foldl_cons, List.map_cons, List.sum_cons]
    rw [foldl_add_eq_sum f t (acc + f x)]
    ring

lemma totalsWeight_eq_sum : ∀ (txs : List Transaction) (acc : ℚ),
    txs.foldl (fun acc tx =>
      tx.items.foldl (fun a it => a + it.weightPerUnitLbs * (it.quantity : ℚ)) acc) acc =
    acc + (txs.map (fun tx =>
      (tx.items.map (fun it => it.weightPerUnitLbs * (it.quantity : ℚ))).sum)).sum
  | [], acc => by simp
  | tx :: t, acc => by
    simp only [List.foldl_cons, List.map_cons, List.sum_cons]
    rw [foldl_add_eq_sum (fun it => it.weightPerUnitLbs * (it.quantity : ℚ)) tx.items acc,
      totalsWeight_eq_sum t]
    ring

lemma totalsValue_eq_sum : ∀ (txs : List Transaction) (acc : ℚ),
    txs.foldl (fun acc tx =>
      tx.items.foldl (fun a it => a + it.valuePerUnitUsd * (it.quantity : ℚ)) acc) acc =
    acc + (txs.map (fun tx =>
      (tx.items.map (fun it => it.valuePerUnitUsd * (it.quantity : ℚ))).sum)).sum
  | [], acc => by simp
  | tx :: t, acc => by
    simp only [List.foldl_cons, List.map_cons, List.sum_cons]
    rw [foldl_add_eq_sum (fun it => it.valuePerUnitUsd * (it.quantity : ℚ)) tx.items acc,
      totalsValue_eq_sum t]
    ring

/-- C8: with non-empty bounds the date-range report keeps exactly the
OUT transactions whose date-only timestamp prefix lies between the
bounds inclusively (lexicographic string comparison), and the
accumulated total weight and value equal the sums over the selected
transactions' line items of quantity times weight and quantity times
value per unit. -/
theorem c8_range_report_filter_and_totals (fromDate toDate : String)
    (txs : List Transaction) (hf : fromDate ≠ "") (ht : toDate ≠ "") :
    rangeTx fromDate toDate txs = txs.filter (fun tx =>
      tx.type == TransactionType.OUT
      && jsStrLe fromDate (dateOnly tx.timestamp)
      && jsStrLe (dateOnly tx.timestamp) toDate)
    ∧ totalsWeight (rangeTx fromDate toDate txs) =
        ((rangeTx fromDate toDate txs).map (fun tx =>
          (tx.items.map (fun it => it.weightPerUnitLbs * (it.quantity : ℚ))).sum)).sum
    ∧ totalsValue (rangeTx fromDate toDate txs) =
        ((rangeTx fromDate toDate txs).map (fun tx =>
          (tx.items.map (fun it => it.valuePerUnitUsd * (it.quantity : ℚ))).sum)).sum := by
  refine ⟨?_, ?_, ?_⟩
  · unfold rangeTx
    apply List.filter_congr
    intro tx _
    have hf' : (fromDate != "") = true := by simpa using hf
    have ht' : (toDate != "") = true := by simpa using ht
    simp only [hf', ht', Bool.true_and]
    cases hlo : jsStrLt (dateOnly tx.timestamp) fromDate with
    | true =>
      have : jsStrLe fromDate (dateOnly tx.timestamp) = false := by
        cases hle : jsStrLe fromDate (dateOnly tx.timestamp) with
        | true => rw [(jsStrLt_eq_false_iff _ _).2 hle] at hlo; exact absurd hlo (by simp)
        | false => rfl
      simp [this]
    | false =>
      have hge : jsStrLe fromDate (dateOnly tx.timestamp) = true :=
        (jsStrLt_eq_false_iff _ _).1 hlo
      cases hhi : jsStrLt toDate (dateOnly tx.timestamp) with
      | true =>
        have : jsStrLe (dateOnly tx.timestamp) toDate = false := by
          cases hle : jsStrLe (dateOnly tx.timestamp) toDate with
          | true => rw [(jsStrLt_eq_false_iff _ _).2 hle] at hhi; exact absurd hhi (by simp)
          | false => rfl
        simp [this]
      | false =>
        have hle : jsStrLe (dateOnly tx.timestamp) toDate = true :=
          (jsStrLt_eq_false_iff _ _).1 hhi
        simp [hge, hle]
  · unfold totalsWeight
    rw [totalsWeight_eq_sum]
    ring
  · unfold totalsValue
    rw [totalsValue_eq_sum]
    ring

def c8wTx : Transaction :=
  { id := "1"
    type := TransactionType.OUT
    timestamp := "2024-01-05T10:00:00Z"
    items := [{ itemId := "A", name := "Rice", quantity := 2,
                weightPerUnitLbs := 3, valuePerUnitUsd := 5 }] }

theorem c8_range_report_filter_and_totals_witness :
    rangeTx "2024-01-01" "2024-01-31" [c8wTx] = [c8wTx].filter (fun tx =>
      tx.type == TransactionType.OUT
      && jsStrLe "2024-01-01" (dateOnly tx.timestamp)
      && jsStrLe (dateOnly tx.timestamp) "2024-01-31")
    ∧ totalsWeight (rangeTx "2024-01-01" "2024-01-31" [c8wTx]) =
        ((rangeTx "2024-01-01" "2024-01-31" [c8wTx]).map (fun tx =>
          (tx.items.map (fun it => it.weightPerUnitLbs * (it.quantity : ℚ))).sum)).sum
    ∧ totalsValue (rangeTx "2024-01-01" "2024-01-31" [c8wTx]) =
        ((rangeTx "2024-01-01" "2024-01-31" [c8wTx]).map (fun tx =>
          (tx.items.map (fun it => it.valuePerUnitUsd * (it.quantity : ℚ))).sum)).sum :=
  c8_range_report_filter_and_totals "2024-01-01" "2024-01-31" [c8wTx]
    (by decide) (by decide)

/-- An item bearing a barcode, used to exhibit barcode-resolved updates. -/
def c4Item : InventoryItem :=
  { id := "A", name := "x", category := "c", barcode := some "B", quantity := 0,
    weightPerUnitLbs := 0, valuePerUnitUsd := 0, createdAt := "t0", updatedAt := "t0" }

/-- A state holding just `c4Item`. -/
def c4State : RepositoryState :=
  { defaultState with inventory := [c4Item] }

/-- A patch that resolves `c4Item` by barcode while carrying a different id. -/
def c4Patch : ItemPatch :=
  { id := some "C", name := "y", barcode := some "B" }

/-- C4 fails as stated: a patch carrying an id different from the
resolved item's id overwrites that id (the object spread copies every
present field, id included), so the updated item does not keep the
existing id. -/
theorem c4_claim_counterexample :
    resolveItem c4Patch c4State.inventory = some c4Item
    ∧ c4Item.id = "A"
    ∧ ((addOrUpdateItem c4Patch "t1" "f" c4State).2.inventory.map (fun i => i.id)) = ["C"]
    ∧ (addOrUpdateItem c4Patch "t1" "f" c4State).1.id ≠ c4Item.id := by
  refine ⟨by decide, rfl, by decide, by decide⟩

/-- C4 amended: on an update resolved by id or barcode, every field
present in the patch — including id and createdAt — takes the patch's
value, absent fields keep the existing value, and updatedAt is set to
the call time; id and createdAt are therefore kept exactly when the
patch does not carry them (or carries equal values).  The updated item
replaces every inventory entry bearing the resolved item's id. -/
theorem c4_update_field_semantics (p : ItemPatch) (now freshId : String)
    (s : RepositoryState) (ex : InventoryItem)
    (hres : resolveItem p s.inventory = some ex) :
    (addOrUpdateItem p now freshId s).1.id = p.id.getD ex.id
    ∧ (addOrUpdateItem p now freshId s).1.name = p.name
    ∧ (addOrUpdateItem p now freshId s).1.category = p.category.getD ex.category
    ∧ (addOrUpdateItem p now freshId s).1.barcode =
        (match p.barcode with | some b => some b | none => ex.barcode)
    ∧ (addOrUpdateItem p now freshId s).1.quantity = p.quantity.getD ex.quantity
    ∧ (addOrUpdateItem p now freshId s).1.weightPerUnitLbs =
        p.weightPerUnitLbs.getD ex.weightPerUnitLbs
    ∧ (addOrUpdateItem p now freshId s).1.valuePerUnitUsd =
        p.valuePerUnitUsd.getD ex.valuePerUnitUsd
    ∧ (addOrUpdateItem p now freshId s).1.reorderThreshold =
        (match p.reorderThreshold with | some r => some r | none => ex.reorderThreshold)
    ∧ (addOrUpdateItem p now freshId s).1.allergens =
        (match p.allergens with | some a => some a | none => ex.allergens)
    ∧ (addOrUpdateItem p now freshId s).1.createdAt = p.createdAt.getD ex.createdAt
    ∧ (addOrUpdateItem p now freshId s).1.updatedAt = now
    ∧ (addOrUpdateItem p now freshId s).2.inventory =
        s.inventory.map (fun i =>
          if i.id == ex.id then (addOrUpdateItem p now freshId s).1 else i) := by
  unfold addOrUpdateItem
  rw [hres]
  exact ⟨rfl, rfl, rfl, rfl, rfl, rfl, rfl, rfl, rfl, rfl, rfl, rfl⟩

/-- A patch resolving `c4Item` by id, carrying no id or createdAt. -/
def c4wPatch : ItemPatch :=
  { id := some "A", name := "z" }

theorem c4_update_field_semantics_witness :
    (addOrUpdateItem c4wPatch "t2" "g" c4State).1.id = "A"
    ∧ (addOrUpdateItem c4wPatch "t2" "g" c4State).1.name = "z"
    ∧ (addOrUpdateItem c4wPatch "t2" "g" c4State).1.category = "c"
    ∧ (addOrUpdateItem c4wPatch "t2" "g" c4State).1.barcode = some "B"
    ∧ (addOrUpdateItem c4wPatch "t2" "g" c4State).1.quantity = 0
    ∧ (addOrUpdateItem c4wPatch "t2" "g" c4State).1.weightPerUnitLbs = 0
    ∧ (addOrUpdateItem c4wPatch "t2" "g" c4State).1.valuePerUnitUsd = 0
    ∧ (addOrUpdateItem c4wPatch "t2" "g" c4State).1.reorderThreshold = none
    ∧ (addOrUpdateItem c4wPatch "t2" "g" c4State).1.allergens = none
    ∧ (addOrUpdateItem c4wPatch "t2" "g" c4State).1.createdAt = "t0"
    ∧ (addOrUpdateItem c4wPatch "t2" "g" c4State).1.updatedAt = "t2"
    ∧ (addOrUpdateItem c4wPatch "t2" "g" c4State).2.inventory =
        c4State.inventory.map (fun i =>
          if i.id == c4Item.id then (addOrUpdateItem c4wPatch "t2" "g" c4State).1 else i) :=
  c4_update_field_semantics c4wPatch "t2" "g" c4State c4Item (by decide)

/-- A cart containing two lines for the same item. -/
def c3Options : OutboundOptions :=
  { client := { name := "J", identifier := "j" }
    items := [{ itemId := "A", quantity := 3 }, { itemId := "A", quantity := 4 }] }

/-- C3 fails as stated: with cart lines {A,3} and {A,4} on an item with
quantity 10, the resulting quantity is 7 — only the first line was
applied, so the second line's promised max(0, 10 - 4) = 6 (or a
cumulative 3) never happens. -/
theorem c3_claim_counterexample :
    ((recordOutbound c3Options "t1" "tx" "cid" sampleState).2.inventory.map
      (fun i => i.quantity)) = [7]
    ∧ (7 : Int) ≠ max 0 (10 - 4) := by
  refine ⟨by decide, by decide⟩

/-- C3 amended: for a non-rejected call, each inventory item referenced
by at least one cart line ends with quantity max(0, previous - q) where
q is the quantity of the first cart line bearing its id; later lines
with the same itemId are not applied to inventory, and unreferenced
items keep their quantity. -/
theorem c3_outbound_first_line_decrement (o : OutboundOptions) (now txId cid : String)
    (s : RepositoryState) (hne : o.items ≠ [])
    (htx : outTxItems o s.inventory ≠ []) :
    (recordOutbound o now txId cid s).2.inventory.length = s.inventory.length
    ∧ (∀ (i : Nat) (h1 : i < s.inventory.length)
        (h2 : i < (recordOutbound o now txId cid s).2.inventory.length),
        ((recordOutbound o now txId cid s).2.inventory.get ⟨i, h2⟩).quantity =
          match o.items.find? (fun l => l.itemId == (s.inventory.get ⟨i, h1⟩).id) with
          | some l => max 0 ((s.inventory.get ⟨i, h1⟩).quantity - l.quantity)
          | none => (s.inventory.get ⟨i, h1⟩).quantity) := by
  have hinv : (recordOutbound o now txId cid s).2.inventory =
      outInventory o (o.timestamp.getD now) s.inventory := by
    unfold recordOutbound
    rw [List.isEmpty_eq_false.2 hne]
    simp only [Bool.false_eq_true, if_false, List.isEmpty_eq_false.2 htx]
  constructor
  · rw [hinv]
    exact List.length_map _ _
  · intro i h1 h2
    rw [List.get_of_eq hinv ⟨i, h2⟩]
    unfold outInventory
    simp only [List.get_eq_getElem, List.getElem_map]
    cases hfind : o.items.find? (fun l => l.itemId == s.inventory[i].id) with
    | none => rfl
    | some l => rfl

theorem c3_outbound_first_line_decrement_witness :
    (recordOutbound c9wOptions "t" "tx" "cid" sampleState).2.inventory.length =
      sampleState.inventory.length
    ∧ ((recordOutbound c9wOptions "t" "tx" "cid" sampleState).2.inventory.get
        ⟨0, by decide⟩).quantity =
      match c9wOptions.items.find?
          (fun l => l.itemId == (sampleState.inventory.get ⟨0, by decide⟩).id) with
      | some l => max 0 ((sampleState.inventory.get ⟨0, by decide⟩).quantity - l.quantity)
      | none => (sampleState.inventory.get ⟨0, by decide⟩).quantity :=
  ⟨(c3_outbound_first_line_decrement c9wOptions "t" "tx" "cid" sampleState
      (by decide) (by decide)).1,
   (c3_outbound_first_line_decrement c9wOptions "t" "tx" "cid" sampleState
      (by decide) (by decide)).2 0 (by decide) (by decide)⟩

lemma resolveItem_mem {p : ItemPatch} {inv : List InventoryItem} {ex : InventoryItem}
    (hres : resolveItem p inv = some ex) : ex ∈ inv := by
  unfold resolveItem at hres
  cases h1 : (if optTruthy p.id then inv.find? (fun i => p.id == some i.id) else none) with
  | some i =>
    rw [h1] at hres
    have hie : i = ex := by simpa using hres
    subst hie
    by_cases ht : optTruthy p.id = true
    · rw [if_pos ht] at h1
      exact List.mem_of_find?_eq_some h1
    · rw [if_neg ht] at h1
      cases h1
  | none =>
    rw [h1] at hres
    by_cases hb : optTruthy p.barcode = true
    · rw [if_pos hb] at hres
      exact List.mem_of_find?_eq_some hres
    · rw [if_neg hb] at hres
      cases hres

lemma applyOp_preserves_nonneg (op : Op) (s : RepositoryState)
    (hok : addQuantityOK op = true) (hs : quantitiesNonneg s) :
    quantitiesNonneg (applyOp op s) := by
  cases op with
  | add p now freshId =>
    simp only [applyOp]
    unfold addOrUpdateItem
    have hq : ∀ q, p.quantity = some q → 0 ≤ q := by
      intro q hqe
      simp only [addQuantityOK] at hok
      rw [hqe] at hok
      simpa using hok
    cases hres : resolveItem p s.inventory with
    | some ex =>
      intro i hi
      rcases List.mem_map.1 hi with ⟨j, hj, rfl⟩
      by_cases hid : (j.id == ex.id) = true
      · simp only [hid, if_true, if_pos]
        show 0 ≤ (applyItemPatch ex p now).quantity
        unfold applyItemPatch
        cases hpq : p.quantity with
        | none => simpa using hs ex (resolveItem_mem hres)
        | some q => simpa [hpq] using hq q hpq
      · simp only [hid, Bool.false_eq_true, if_false]
        exact hs j hj
    | none =>
      intro i hi
      rcases List.mem_append.1 hi with hij | hij
      · exact hs i hij
      · have hix := List.mem_singleton.1 hij
        subst hix
        show 0 ≤ p.quantity.getD 0
        cases hpq : p.quantity with
        | none => simp
        | some q => simpa using hq q hpq
  | adjust itemId delta now =>
    intro i hi
    simp only [applyOp, adjustItemQuantity] at hi
    rcases List.mem_map.1 hi with ⟨j, hj, rfl⟩
    by_cases hid : (j.id == itemId) = true
    · simp only [hid, if_true, if_pos]
      exact le_max_left 0 _
    · simp only [hid, Bool.false_eq_true, if_false]
      exact hs j hj
  | inbound o now txId =>
    simp only [applyOp]
    unfold recordInbound
    by_cases hq : o.quantity ≤ 0
    · rw [if_pos hq]
      exact hs
    · rw [if_neg hq]
      cases hfind : s.inventory.find? (fun i => i.id == o.itemId) with
      | none => exact hs
      | some item =>
        intro i hi
        rcases List.mem_map.1 hi with ⟨j, hj, rfl⟩
        by_cases hid : (j.id == o.itemId) = true
        · simp only [hid, if_true, if_pos]
          exact add_nonneg (hs j hj) (le_of_lt (not_le.1 hq))
        · simp only [hid, Bool.false_eq_true, if_false]
          exact hs j hj
  | outbound o now txId cid =>
    simp only [applyOp]
    unfold recordOutbound
    by_cases he : o.items.isEmpty
    · rw [if_pos he]
      exact hs
    · rw [if_neg he]
      by_cases ht : (outTxItems o s.inventory).isEmpty
      · simp only [ht, if_true, if_pos]
        exact hs
      · simp only [ht, Bool.false_eq_true, if_false]
        intro i hi
        rcases List.mem_map.1 hi with ⟨j, hj, rfl⟩
        cases hfind : o.items.find? (fun l => l.itemId == j.id) with
        | none =>
          simp only [outInventory, hfind]
          exact hs j hj
        | some l =>
          simp only [outInventory, hfind]
          exact le_max_left 0 _
  | upClient p now freshId =>
    have hinv : (upsertClient p now freshId s).2.inventory = s.inventory := by
      unfold upsertClient
      cases resolveClient p s.clients <;> rfl
    intro i hi
    simp only [applyOp] at hi
    rw [hinv] at hi
    exact hs i hi
  | setSettings p => exact hs
  | upCache b e now => exact hs
  | addSrc src =>
    have hinv : (addSource src s).inventory = s.inventory := by
      unfold addSource
      split <;> rfl
    intro i hi
    simp only [applyOp] at hi
    rw [hinv] at hi
    exact hs i hi
  | addDon d =>
    have hinv : (addDonor d s).inventory = s.inventory := by
      unfold addDonor
      split <;> rfl
    intro i hi
    simp only [applyOp] at hi
    rw [hinv] at hi
    exact hs i hi

lemma applyOps_preserves_nonneg : ∀ (ops : List Op) (s : RepositoryState),
    quantitiesNonneg s → (∀ op ∈ ops, addQuantityOK op = true) →
    quantitiesNonneg (applyOps ops s)
  | [], s, hs, _ => hs
  | op :: t, s, hs, hok => by
    have hstep := applyOp_preserves_nonneg op s (hok op (List.mem_cons_self op t)) hs
    have := applyOps_preserves_nonneg t (applyOp op s) hstep
      (fun o ho => hok o (List.mem_cons_of_mem op ho))
    simpa [applyOps, List.foldl_cons] using this

/-- One operation whose patch carries a negative quantity. -/
def c1BadOps : List Op :=
  [Op.add { name := "x", quantity := some (-1) } "t" "f"]

/-- C1 fails as stated: `addOrUpdateItem` applies a patch quantity
verbatim, so a single operation carrying quantity -1 yields an
inventory item with a negative quantity. -/
theorem c1_claim_counterexample :
    ¬ quantitiesNonneg (applyOps c1BadOps defaultState) := by
  unfold quantitiesNonneg
  decide

/-- C1 amended: every sequence of engine operations starting from the
default state in which each addOrUpdateItem patch carries a
non-negative quantity whenever it carries one leaves every inventory
item with quantity at least 0 (the other operations guard or clamp on
their own). -/
theorem c1_quantities_nonneg (ops : List Op)
    (hok : ∀ op ∈ ops, addQuantityOK op = true) :
    quantitiesNonneg (applyOps ops defaultState) :=
  applyOps_preserves_nonneg ops defaultState (fun i hi => by cases hi) hok

/-- A well-behaved operation sequence: create an item, receive stock,
check some out, and adjust downward past zero. -/
def c1GoodOps : List Op :=
  [Op.add { name := "Rice", quantity := some 2 } "t0" "f1",
   Op.inbound { itemId := "f1", quantity := 3 } "t1" "tx1",
   Op.adjust "f1" (-100) "t2"]

theorem c1_quantities_nonneg_witness :
    quantitiesNonneg (applyOps c1GoodOps defaultState) :=
  c1_quantities_nonneg c1GoodOps (by decide)

lemma countP_id_eq_one {l : List InventoryItem} {ex : InventoryItem}
    (hnd : (l.map (fun i => i.id)).Nodup) (hm : ex ∈ l) :
    l.countP (fun i => i.id == ex.id) = 1 := by
  have h1 : (l.map (fun i => i.id)).countP (fun y => y == ex.id) =
      l.countP (fun i => i.id == ex.id) := by
    rw [List.countP_map]
    rfl
  rw [← h1]
  have h2 : (l.map (fun i => i.id)).count ex.id = 1 :=
    List.count_eq_one_of_mem hnd (List.mem_map_of_mem _ hm)
  simpa [List.count] using h2

lemma nodup_ids_map_replace {l : List InventoryItem} {u : InventoryItem} {exId : String}
    (hnd : (l.map (fun i => i.id)).Nodup) (hfresh : ∀ i ∈ l, i.id ≠ u.id) :
    ((l.map (fun i => if i.id == exId then u else i)).map (fun i => i.id)).Nodup := by
  induction l with
  | nil => simp
  | cons j t ih =>
    simp only [List.map_cons, List.nodup_cons] at hnd ⊢
    obtain ⟨hj, hndt⟩ := hnd
    refine ⟨?_, ih hndt (fun i hi => hfresh i (List.mem_cons_of_mem _ hi))⟩
    intro hmem
    rcases List.mem_map.1 hmem with ⟨i', hi', heq⟩
    rcases List.mem_map.1 hi' with ⟨i, hi, rfl⟩
    by_cases hji : (j.id == exId) = true
    · by_cases hii : (i.id == exId) = true
      · apply hj
        have hids : i.id = j.id := by
          rw [beq_iff_eq] at hji hii
          rw [hii, hji]
        exact hids ▸ List.mem_map_of_mem _ hi
      · apply hfresh i (List.mem_cons_of_mem _ hi)
        simp only [hii, Bool.false_eq_true, if_false, hji, if_true, if_pos] at heq
        exact heq
    · by_cases hii : (i.id == exId) = true
      · apply hfresh j (List.mem_cons_self _ _)
        simp only [hii, if_true, if_pos, hji, Bool.false_eq_true, if_false] at heq
        exact heq.symm
      · apply hj
        simp only [hii, hji, Bool.false_eq_true, if_false] at heq
        exact heq ▸ List.mem_map_of_mem _ hi

lemma ids_after_update {l : List InventoryItem} {u ex : InventoryItem} {X : String}
    (hnd : (l.map (fun i => i.id)).Nodup) (hex : ex ∈ l) (huid : u.id = X)
    (hcnd : ∀ i ∈ l, i.id = X → i.id = ex.id) :
    ((l.map (fun i => if i.id == ex.id then u else i)).map (fun i => i.id)).Nodup
    ∧ (l.map (fun i => if i.id == ex.id then u else i)).countP (fun i => i.id == X) = 1 := by
  constructor
  · rw [List.map_map]
    have hpt : ∀ i ∈ l,
        ((fun i => i.id) ∘ fun i => if i.id == ex.id then u else i) i =
          (fun y => if y == ex.id then X else y) i.id := by
      intro i _
      by_cases h : (i.id == ex.id) = true
      · simp only [Function.comp, h, if_true, if_pos, huid]
      · simp only [Function.comp, h, Bool.false_eq_true, if_false]
    rw [List.map_congr_left hpt]
    have hmm : l.map (fun i => (fun y => if y == ex.id then X else y) i.id) =
        (l.map (fun i => i.id)).map (fun y => if y == ex.id then X else y) := by
      rw [List.map_map]
      rfl
    rw [hmm]
    apply List.Nodup.map_on ?_ hnd
    intro y1 h1 y2 h2 heq
    rcases List.mem_map.1 h1 with ⟨i1, hi1, rfl⟩
    rcases List.mem_map.1 h2 with ⟨i2, hi2, rfl⟩
    by_cases e1 : (i1.id == ex.id) = true
    · by_cases e2 : (i2.id == ex.id) = true
      · rw [beq_iff_eq] at e1 e2
        rw [e1, e2]
      · simp only [e1, if_true, if_pos, e2, Bool.false_eq_true, if_false] at heq
        have h2x := hcnd i2 hi2 heq.symm
        simp [h2x] at e2
    · by_cases e2 : (i2.id == ex.id) = true
      · simp only [e1, Bool.false_eq_true, if_false, e2, if_true, if_pos] at heq
        have h1x := hcnd i1 hi1 heq
        simp [h1x] at e1
      · simpa only [e1, e2, Bool.false_eq_true, if_false] using heq
  · have hmap : (l.map (fun i => if i.id == ex.id then u else i)).countP
        (fun i => i.id == X) = l.countP
          ((fun i => i.id == X) ∘ fun i => if i.id == ex.id then u else i) :=
      List.countP_map _ _ _
    rw [hmap]
    have hpt : ∀ i ∈ l,
        ((fun i => i.id == X) ∘ fun i => if i.id == ex.id then u else i) i =
          (fun i => i.id == ex.id) i := by
      intro i hi
      by_cases h : (i.id == ex.id) = true
      · simp only [Function.comp, h, if_true, if_pos, huid]
        simp
      · simp only [Function.comp, h, Bool.false_eq_true, if_false]
        by_cases hx : (i.id == X) = true
        · rw [beq_iff_eq] at hx
          have := hcnd i hi hx
          simp [this] at h
        · simpa using hx
    rw [List.countP_congr (fun x hx => by rw [hpt x hx])]
    exact countP_id_eq_one hnd hex

lemma addOrUpdateItem_id_step {p : ItemPatch} {X : String} (hX : p.id = some X)
    (hne : X ≠ "") (now freshId : String) (s : RepositoryState)
    (hnd : (s.inventory.map (fun i => i.id)).Nodup) :
    ((addOrUpdateItem p now freshId s).2.inventory.map (fun i => i.id)).Nodup
    ∧ (addOrUpdateItem p now freshId s).2.inventory.countP (fun i => i.id == X) = 1 := by
  have htr : optTruthy p.id = true := by
    rw [hX]
    simp only [optTruthy, Bool.not_eq_true']
    rw [Bool.eq_false_iff]
    intro hB
    exact hne ((String.isEmpty_iff X).1 hB)
  cases hfid : s.inventory.find? (fun i => p.id == some i.id) with
  | some e1 =>
    have hres : resolveItem p s.inventory = some e1 := by
      unfold resolveItem
      rw [if_pos htr, hfid]
    have he1 : e1 ∈ s.inventory := List.mem_of_find?_eq_some hfid
    have hid1 : e1.id = X := by
      have h := List.find?_some hfid
      rw [hX] at h
      have h2 : X = e1.id := by simpa using h
      exact h2.symm
    have heq : (addOrUpdateItem p now freshId s).2.inventory =
        s.inventory.map (fun i =>
          if i.id == e1.id then (addOrUpdateItem p now freshId s).1 else i) := by
      unfold addOrUpdateItem
      rw [hres]
    have huid : (addOrUpdateItem p now freshId s).1.id = X := by
      unfold addOrUpdateItem
      rw [hres]
      show (applyItemPatch e1 p now).id = X
      unfold applyItemPatch
      rw [hX]
      rfl
    rw [heq]
    exact ids_after_update hnd he1 huid (fun i _ hiX => by rw [hiX, hid1])
  | none =>
    have hno : ∀ i ∈ s.inventory, i.id ≠ X := by
      intro i hi hXe
      have h := List.find?_eq_none.1 hfid i hi
      apply h
      rw [hX, hXe]
      simp
    cases hres : resolveItem p s.inventory with
    | some ex =>
      have hex : ex ∈ s.inventory := resolveItem_mem hres
      have heq : (addOrUpdateItem p now freshId s).2.inventory =
          s.inventory.map (fun i =>
            if i.id == ex.id then (addOrUpdateItem p now freshId s).1 else i) := by
        unfold addOrUpdateItem
        rw [hres]
      have huid : (addOrUpdateItem p now freshId s).1.id = X := by
        unfold addOrUpdateItem
        rw [hres]
        show (applyItemPatch ex p now).id = X
        unfold applyItemPatch
        rw [hX]
        rfl
      rw [heq]
      exact ids_after_update hnd hex huid
        (fun i hi hiX => absurd hiX (hno i hi))
    | none =>
      have heq : (addOrUpdateItem p now freshId s).2.inventory =
          s.inventory ++ [(addOrUpdateItem p now freshId s).1] := by
        unfold addOrUpdateItem
        rw [hres]
      have huid : (addOrUpdateItem p now freshId s).1.id = X := by
        unfold addOrUpdateItem
        rw [hres]
        show p.id.getD freshId = X
        rw [hX]
        rfl
      rw [heq]
      constructor
      · rw [List.map_append]
        simp only [List.map_cons, List.map_nil]
        rw [List.nodup_append]
        refine ⟨hnd, by simp, ?_⟩
        intro a ha hb
        rcases List.mem_map.1 ha with ⟨i, hi, rfl⟩
        have hax : i.id = (addOrUpdateItem p now freshId s).1.id := by simpa using hb
        rw [huid] at hax
        exact hno i hi hax
      · rw [List.countP_append]
        have h0 : s.inventory.countP (fun i => i.id == X) = 0 := by
          rw [List.countP_eq_zero]
          intro i hi
          simp [hno i hi]
        rw [h0]
        have hone : ((addOrUpdateItem p now freshId s).1.id == X) = true := by
          rw [huid]
          simp
        simp [List.countP_cons, hone]

lemma addOrUpdateItem_update_inventory {p : ItemPatch} {s : RepositoryState}
    {ex : InventoryItem} (hres : resolveItem p s.inventory = some ex)
    (now freshId : String) :
    (addOrUpdateItem p now freshId s).2.inventory =
      s.inventory.map (fun i =>
        if i.id == ex.id then (addOrUpdateItem p now freshId s).1 else i) := by
  unfold addOrUpdateItem
  rw [hres]

lemma addOrUpdateItem_update_item {p : ItemPatch} {s : RepositoryState}
    {ex : InventoryItem} (hres : resolveItem p s.inventory = some ex)
    (now freshId : String) :
    (addOrUpdateItem p now freshId s).1 = applyItemPatch ex p now := by
  unfold addOrUpdateItem
  rw [hres]

lemma addOrUpdateItem_create_inventory {p : ItemPatch} {s : RepositoryState}
    (hres : resolveItem p s.inventory = none) (now freshId : String) :
    (addOrUpdateItem p now freshId s).2.inventory =
      s.inventory ++ [(addOrUpdateItem p now freshId s).1] := by
  unfold addOrUpdateItem
  rw [hres]

lemma addOrUpdateItem_create_id {p : ItemPatch} {s : RepositoryState}
    (hres : resolveItem p s.inventory = none) (now freshId : String) :
    (addOrUpdateItem p now freshId s).1.id = p.id.getD freshId := by
  unfold addOrUpdateItem
  rw [hres]

lemma addOrUpdateItem_create_name {p : ItemPatch} {s : RepositoryState}
    (hres : resolveItem p s.inventory = none) (now freshId : String) :
    (addOrUpdateItem p now freshId s).1.name = p.name := by
  unfold addOrUpdateItem
  rw [hres]

lemma addOrUpdateItem_create_barcode {p : ItemPatch} {s : RepositoryState}
    (hres : resolveItem p s.inventory = none) (now freshId : String) :
    (addOrUpdateItem p now freshId s).1.barcode =
      (match p.barcode with
        | some bb => if (jsTrim bb).isEmpty then none else some (jsTrim bb)
        | none => none) := by
  unfold addOrUpdateItem
  rw [hres]

lemma barcode_upsert_scenario (b n1 n2 now1 f1 now2 f2 : String) (s : RepositoryState)
    (hb : b ≠ "") (htrim : jsTrim b = b)
    (habs : ∀ i ∈ s.inventory, i.barcode ≠ some b)
    (hfr : ∀ i ∈ s.inventory, i.id ≠ f1) :
    ((addOrUpdateItem { name := n2, barcode := some b } now2 f2
        (addOrUpdateItem { name := n1, barcode := some b } now1 f1 s).2).2.inventory.countP
      (fun i => i.barcode == some b)) = 1
    ∧ ∀ i ∈ (addOrUpdateItem { name := n2, barcode := some b } now2 f2
        (addOrUpdateItem { name := n1, barcode := some b } now1 f1 s).2).2.inventory,
        i.barcode = some b → i.name = n2 := by
  have hbe : b.isEmpty = false := by
    rw [Bool.eq_false_iff]
    intro h
    exact hb ((String.isEmpty_iff b).1 h)
  have htrB : optTruthy (some b) = true := by simp [optTruthy, hbe]
  have hfb : s.inventory.find? (fun i => optTruthy i.barcode && (i.barcode == some b)) = none := by
    rw [List.find?_eq_none]
    intro i hi hpred
    rw [Bool.and_eq_true] at hpred
    exact habs i hi (by simpa using hpred.2)
  have hres1 : resolveItem { name := n1, barcode := some b } s.inventory = none := by
    show (if optTruthy (some b) = true then
        s.inventory.find? (fun i => optTruthy i.barcode && (i.barcode == some b))
      else none) = none
    rw [if_pos htrB, hfb]
  have h1inv := addOrUpdateItem_create_inventory hres1 now1 f1
  have h1id : (addOrUpdateItem { name := n1, barcode := some b } now1 f1 s).1.id = f1 := by
    rw [addOrUpdateItem_create_id hres1]
    rfl
  have h1bar : (addOrUpdateItem { name := n1, barcode := some b } now1 f1 s).1.barcode =
      some b := by
    rw [addOrUpdateItem_create_barcode hres1]
    show (if (jsTrim b).isEmpty = true then none else some (jsTrim b)) = some b
    rw [htrim, hbe]
    simp
  have hp1 : (optTruthy (addOrUpdateItem { name := n1, barcode := some b } now1 f1 s).1.barcode
      && ((addOrUpdateItem { name := n1, barcode := some b } now1 f1 s).1.barcode == some b))
      = true := by
    rw [h1bar, htrB]
    simp
  have hres2 : resolveItem { name := n2, barcode := some b }
      (addOrUpdateItem { name := n1, barcode := some b } now1 f1 s).2.inventory =
      some (addOrUpdateItem { name := n1, barcode := some b } now1 f1 s).1 := by
    show (if optTruthy (some b) = true then
        (addOrUpdateItem { name := n1, barcode := some b } now1 f1 s).2.inventory.find?
          (fun i => optTruthy i.barcode && (i.barcode == some b))
      else none) =
      some (addOrUpdateItem { name := n1, barcode := some b } now1 f1 s).1
    rw [if_pos htrB, h1inv, List.find?_append, hfb]
    simp only [Option.none_or, List.find?_cons, hp1]
  have h2inv := addOrUpdateItem_update_inventory hres2 now2 f2
  have h2item := addOrUpdateItem_update_item hres2 now2 f2
  have h2bar : (addOrUpdateItem { name := n2, barcode := some b } now2 f2
      (addOrUpdateItem { name := n1, barcode := some b } now1 f1 s).2).1.barcode = some b := by
    rw [h2item]
    rfl
  have h2name : (addOrUpdateItem { name := n2, barcode := some b } now2 f2
      (addOrUpdateItem { name := n1, barcode := some b } now1 f1 s).2).1.name = n2 := by
    rw [h2item]
    rfl
  have hfinal : (addOrUpdateItem { name := n2, barcode := some b } now2 f2
      (addOrUpdateItem { name := n1, barcode := some b } now1 f1 s).2).2.inventory =
      s.inventory ++ [(addOrUpdateItem { name := n2, barcode := some b } now2 f2
        (addOrUpdateItem { name := n1, barcode := some b } now1 f1 s).2).1] := by
    rw [h2inv, h1inv, List.map_append]
    congr 1
    · refine (List.map_congr_left ?_).trans (List.map_id s.inventory)
      intro i hi
      have hidf : (i.id == (addOrUpdateItem { name := n1, barcode := some b } now1 f1 s).1.id)
          = false := by
        rw [h1id]
        simpa using hfr i hi
      simp only [hidf, Bool.false_eq_true, if_false, id]
    · simp
  rw [hfinal]
  constructor
  · rw [List.countP_append]
    have h0 : s.inventory.countP (fun i => i.barcode == some b) = 0 := by
      rw [List.countP_eq_zero]
      intro i hi
      simp [habs i hi]
    have h1 : ((addOrUpdateItem { name := n2, barcode := some b } now2 f2
        (addOrUpdateItem { name := n1, barcode := some b } now1 f1 s).2).1.barcode == some b)
        = true := by
      rw [h2bar]
      simp
    rw [h0]
    simp [List.countP_cons, h1]
  · intro i hi hbar
    rcases List.mem_append.1 hi with hil | hir
    · exact absurd hbar (habs i hil)
    · have him : i = (addOrUpdateItem { name := n2, barcode := some b } now2 f2
        (addOrUpdateItem { name := n1, barcode := some b } now1 f1 s).2).1 :=
        List.mem_singleton.1 hir
      rw [him, h2name]

/-- C6: identity resolution is idempotent: upserting twice with the
same truthy id (over well-formed inventories whose ids are distinct)
leaves exactly one item with that id, and two upserts carrying the same
non-empty barcode and different names leave exactly one item with that
barcode, bearing the second name (given a fresh generated id and no
prior item with that barcode). -/
theorem c6_identity_resolution_idempotent :
    (∀ (p : ItemPatch) (X now1 f1 now2 f2 : String) (s : RepositoryState),
      p.id = some X → X ≠ "" → (s.inventory.map (fun i => i.id)).Nodup →
      ((addOrUpdateItem p now2 f2
        (addOrUpdateItem p now1 f1 s).2).2.inventory.countP (fun i => i.id == X)) = 1)
    ∧ (∀ (b n1 n2 now1 f1 now2 f2 : String) (s : RepositoryState),
      b ≠ "" → jsTrim b = b →
      (∀ i ∈ s.inventory, i.barcode ≠ some b) →
      (∀ i ∈ s.inventory, i.id ≠ f1) →
      ((addOrUpdateItem { name := n2, barcode := some b } now2 f2
          (addOrUpdateItem { name := n1, barcode := some b } now1 f1 s).2).2.inventory.countP
        (fun i => i.barcode == some b)) = 1
      ∧ ∀ i ∈ (addOrUpdateItem { name := n2, barcode := some b } now2 f2
          (addOrUpdateItem { name := n1, barcode := some b } now1 f1 s).2).2.inventory,
          i.barcode = some b → i.name = n2) := by
  constructor
  · intro p X now1 f1 now2 f2 s hX hne hnd
    have h1 := addOrUpdateItem_id_step hX hne now1 f1 s hnd
    exact (addOrUpdateItem_id_step hX hne now2 f2 _ h1.1).2
  · intro b n1 n2 now1 f1 now2 f2 s hb htrim habs hfr
    exact barcode_upsert_scenario b n1 n2 now1 f1 now2 f2 s hb htrim habs hfr

theorem c6_identity_resolution_idempotent_witness :
    ((addOrUpdateItem { id := some "A", name := "x" } "t2" "f2"
        (addOrUpdateItem { id := some "A", name := "x" } "t1" "f1"
          defaultState).2).2.inventory.countP (fun i => i.id == "A")) = 1
    ∧ (((addOrUpdateItem { name := "n2", barcode := some "123" } "t2" "f2"
          (addOrUpdateItem { name := "n1", barcode := some "123" } "t1" "f1"
            defaultState).2).2.inventory.countP
        (fun i => i.barcode == some "123")) = 1
      ∧ ∀ i ∈ (addOrUpdateItem { name := "n2", barcode := some "123" } "t2" "f2"
          (addOrUpdateItem { name := "n1", barcode := some "123" } "t1" "f1"
            defaultState).2).2.inventory,
          i.barcode = some "123" → i.name = "n2") :=
  ⟨c6_identity_resolution_idempotent.1 { id := some "A", name := "x" } "A"
      "t1" "f1" "t2" "f2" defaultState rfl (by decide) (by decide),
   c6_identity_resolution_idempotent.2 "123" "n1" "n2" "t1" "f1" "t2" "f2"
      defaultState (by decide) (by decide) (by decide) (by decide)⟩
